import Mathlib

/-!
Verification of the gopherci analysis engine specification.

The repository ships the analyser package's test suite (`analyse_test.go`,
present as `src/unnamed/part_000`) but not the engine implementation itself.
The definitions below are therefore modelled from the specification
(`spec.md`, sections 3, 4.2 and 4.3) and cross-checked against the concrete
fixtures of `TestAnalyse_pr`, `TestAnalyse_push`, `TestAnalyse_unknown`,
`TestGetPatch` and `TestGetPatch_diffError`.

Strings are Lean `String`s; the parsing helpers work on the underlying
character lists so that general lemmas can be proved by list induction.
-/

namespace Gopherci

/-! ## Character-list utilities -/

/-- Core of splitting a character list on a separator: returns the first
segment and the remaining segments. -/
def splitOnCharCore (c : Char) : List Char → List Char × List (List Char)
  | [] => ([], [])
  | a :: rest =>
    let r := splitOnCharCore c rest
    if a = c then ([], r.1 :: r.2) else (a :: r.1, r.2)

/-- Split a character list on a separator character. Always non-empty. -/
def splitOnChar (c : Char) (l : List Char) : List (List Char) :=
  (splitOnCharCore c l).1 :: (splitOnCharCore c l).2

/-- Join segments with a separator character; inverse of `splitOnChar`. -/
def joinChar (c : Char) : List (List Char) → List Char
  | [] => []
  | [p] => p
  | p :: q :: ps => p ++ c :: joinChar c (q :: ps)

/-- Numeric value of a list of decimal digits. -/
def natOfDigits (l : List Char) : Nat :=
  l.foldl (fun n c => n * 10 + (c.toNat - 48)) 0

/-! ## Data model (spec section 3, mirrored from `db.Tool` / `db.Issue` as used
by the test file) -/

/-- Event kind of a job. The test file uses `EventTypePullRequest`,
`EventTypePush`, and a zero value that `Analyse` rejects. -/
inductive EventType
  | pullRequest
  | push
  | other
deriving DecidableEq

/-- Job configuration handed to the engine (the test file's `Config`). -/
structure Config where
  eventType : EventType
  baseURL : String
  baseRef : String
  headURL : String
  headRef : String
deriving DecidableEq

/-- A configured static-analysis tool (`db.Tool`). -/
structure Tool where
  id : Nat
  name : String
  path : String
  args : String
deriving DecidableEq

/-- A persisted finding (`db.Issue`). -/
structure Issue where
  path : String
  line : Nat
  hunkPos : Nat
  issue : String
deriving DecidableEq

/-- A finding parsed from a tool's output, before diff scoping. -/
structure Finding where
  path : String
  line : Nat
  msg : String
deriving DecidableEq

/-- Terminal analysis statuses (spec section 3). -/
inductive Status
  | pending
  | success
  | failure
  | error
deriving DecidableEq

/-! ## Diff parser (spec section 4.2)

Modelled from the spec: the unified-diff parser computes, for every added
line, its 1-based new-file line number and its hunk position (1 for the first
line after the file's first hunk header; every subsequent hunk header and
context/added/removed line contributes 1; file headers do not count). -/

/-- Diff map entry: (new-file path, new-file line number, hunk position). -/
abbrev DiffEntry := String × Nat × Nat

/-- Scanner state for the unified-diff parser. -/
structure DiffState where
  path : Option (List Char)
  seenHunk : Bool
  pos : Nat
  newLine : Nat
  entries : List DiffEntry

/-- Modelled from the spec: one step of the unified-diff scan over a single
line of the patch. Handles target file headers, hunk headers, and body lines;
renames and new files come in via the `+++ b/...` (or `/dev/null`) target. -/
def diffStep (s : DiffState) (l : List Char) : DiffState :=
  if ('+' :: '+' :: '+' :: ' ' :: []).isPrefixOf l then
    let tgt := l.drop 4
    let p : Option (List Char) :=
      if tgt = ('/' :: 'd' :: 'e' :: 'v' :: '/' :: 'n' :: 'u' :: 'l' :: 'l' :: []) then none
      else if ('b' :: '/' :: []).isPrefixOf tgt then some (tgt.drop 2) else some tgt
    { s with path := p, seenHunk := false, pos := 0, newLine := 0 }
  else if ('@' :: '@' :: []).isPrefixOf l then
    let start := natOfDigits (((l.dropWhile (fun c => c ≠ '+')).drop 1).takeWhile Char.isDigit)
    { s with seenHunk := true, pos := if s.seenHunk then s.pos + 1 else 0, newLine := start }
  else if s.seenHunk then
    match s.path, l with
    | some p, '+' :: _ =>
      { s with pos := s.pos + 1, newLine := s.newLine + 1,
               entries := s.entries ++ [(⟨p⟩, s.newLine, s.pos + 1)] }
    | none, '+' :: _ => { s with pos := s.pos + 1, newLine := s.newLine + 1 }
    | _, '-' :: _ => { s with pos := s.pos + 1 }
    | _, _ => { s with pos := s.pos + 1, newLine := s.newLine + 1 }
  else s

/-- Modelled from the spec: parse a unified diff into the per-file, per-line
map of added lines (the "diff map"). -/
def parseDiff (patch : String) : List DiffEntry :=
  ((splitOnChar '\n' patch.data).foldl diffStep
    { path := none, seenHunk := false, pos := 0, newLine := 0, entries := [] }).entries

/-- Lookup contract used by the engine: given (file path, new-file line
number), return the hunk position, or `none` when the pair is not an added
line of the diff. -/
def lookupDiff (dm : List DiffEntry) (path : String) (line : Nat) : Option Nat :=
  (dm.find? (fun e => e.1 == path && e.2.1 == line)).map (fun e => e.2.2)

/-! ## Tool output parser (spec section 4.3 step 6c)

Modelled from the spec: accepted format is `PATH:LINE[:COL]: MESSAGE`;
absolute paths are made relative by stripping the workspace prefix; lines
that do not match the format are ignored. -/

/-- Strip the workspace prefix (plus the path separator) from an absolute
path, leaving relative paths untouched. -/
def stripWorkspace (ws p : List Char) : List Char :=
  if (ws ++ ['/']).isPrefixOf p then p.drop (ws.length + 1) else p

/-- Parse a single line of tool output into a finding, normalising the path
against the workspace. Returns `none` for lines not matching
`PATH:LINE[:COL]: MESSAGE`. -/
def parseLine (ws l : List Char) : Option Finding :=
  match splitOnChar ':' l with
  | p0 :: p1 :: rest =>
    if p1 ≠ [] ∧ p1.all Char.isDigit then
      match rest with
      | [] => none
      | r0 :: rtail =>
        let msgRaw :=
          match rtail with
          | [] => joinChar ':' (r0 :: rtail)
          | _ :: _ =>
            if r0 ≠ [] ∧ r0.all Char.isDigit then joinChar ':' rtail
            else joinChar ':' (r0 :: rtail)
        match msgRaw with
        | [] => none
        | c0 :: m =>
          if c0 = ' ' then
            some { path := ⟨stripWorkspace ws p0⟩, line := natOfDigits p1, msg := ⟨m⟩ }
          else none
    else none
  | _ => none

/-- Parse a whole tool output, line by line, dropping unparseable lines. -/
def parseOutput (ws : String) (out : String) : List Finding :=
  (splitOnChar '\n' out.data).filterMap (parseLine ws.data)

/-! ## Executor session (spec section 4.1)

The engine's `Executer` contract is `run(args) -> (combined output, error)`
plus `stop()`. Like the test file's `mockAnalyser`, a session is modelled by
a script of responses consumed one per `Execute` call; the state records the
argv of every command issued, exactly as `mockAnalyser.Executed` does. -/

/-- Error taxonomy of one executed command (spec section 4.1): a command that
ran but exited non-zero carries its exit code (`NonZeroError`); a command
that could not be started at all is a launch failure. `none` is exit 0. -/
inductive ExecErr
  | nonZero (code : Nat)
  | launchFail
deriving DecidableEq

/-- State of an executor session: the scripted responses, the number of
commands executed so far, and the ordered argv log. -/
structure ExecState where
  script : Nat → String × Option ExecErr
  idx : Nat
  log : List (List String)

/-- Result of executing one command. -/
structure ExecStep where
  out : String
  res : Option ExecErr
  st : ExecState

/-- Execute one command: consume the next scripted response and record the
argv, mirroring `mockAnalyser.Execute`. -/
def exec1 (s : ExecState) (args : List String) : ExecStep :=
  { out := (s.script s.idx).1
    res := (s.script s.idx).2
    st := { s with idx := s.idx + 1, log := s.log ++ [args] } }

/-- An executor session's resource state; `stop` releases the resources and
is counted so that "stop is invoked exactly once" is expressible. -/
structure Session where
  stops : Nat
  released : Bool
deriving DecidableEq

/-- A fresh session as produced by the executor factory. -/
def newSession : Session := { stops := 0, released := false }

/-- Modelled from the spec: `stop` releases all session resources; releasing
is idempotent. -/
def stop (s : Session) : Session := { stops := s.stops + 1, released := true }

/-! ## Analysis engine (spec section 4.3)

Everything below is modelled from the spec (its algorithm steps 1-7) because
the engine implementation is not part of the sources; the concrete behaviour
is pinned down by `TestAnalyse_pr`, `TestAnalyse_push` and the `getPatch`
tests. -/

/-- Per-tool result recorded in the analysis: the tool, the argv it was
invoked with, its raw output, the persisted issues in emission order, and
whether the tool failed to launch. -/
structure ToolRun where
  tool : Tool
  argv : List String
  output : String
  issues : List Issue
  launchFailed : Bool
deriving DecidableEq

/-- Outcome of one engine run: final status, the per-tool runs, the executed
argv log, the effective patch text, the workspace path (output of `pwd`), the
executor session after cleanup, and the engine's error return. -/
structure AnalyseResult where
  status : Status
  toolRuns : List ToolRun
  log : List (List String)
  usedPatch : String
  workspace : String
  sess : Session
  err : Option String
deriving DecidableEq

/-- Split an argument template into whitespace-separated fields, as Go's
`strings.Fields` does for the tool argument template. -/
def fields (s : String) : List String :=
  ((splitOnChar ' ' s.data).filter (fun l => l ≠ [])).map (fun l => ⟨l⟩)

/-- Modelled from the spec: expand the `%BASE_BRANCH%` placeholder in the
tool's argument template to the job's base ref. -/
def expandArgs (args : String) (base : String) : List String :=
  (fields args).map (fun a => if a = "%BASE_BRANCH%" then base else a)

/-- Prefix the message with the tool name and build the persisted Issue
(spec section 4.3 step 6f). -/
def mkIssue (name : String) (f : Finding) (pos : Nat) : Issue :=
  { path := f.path, line := f.line, hunkPos := pos, issue := name ++ ": " ++ f.msg }

/-- Findings of one tool that survive the diff lookup, paired with their
hunk positions (spec section 4.3 step 6d). -/
def survivors (dm : List DiffEntry) (ws : String) (out : String) : List (Finding × Nat) :=
  (parseOutput ws out).filterMap
    (fun f => (lookupDiff dm f.path f.line).map (fun pos => (f, pos)))

/-- Modelled from the spec: for each surviving finding run
`isFileGenerated <workspace> <path>`; exit 0 means the file is generated and
the finding is discarded, a non-zero exit means it is kept
(spec section 4.3 step 6e). -/
def dropGenerated (ws : String) : List (Finding × Nat) → ExecState →
    List (Finding × Nat) × ExecState
  | [], st => ([], st)
  | fp :: rest, st =>
    let e := exec1 st ["isFileGenerated", ws, fp.1.path]
    let r := dropGenerated ws rest e.st
    (if e.res.isSome then fp :: r.1 else r.1, r.2)

/-- Result of running one tool. -/
structure RunStep where
  run : ToolRun
  st : ExecState

/-- Modelled from the spec: run one tool (steps 6a-6f). A launch failure is
fatal only to this tool's run, which is recorded with no issues; a non-zero
exit is not fatal and the output is parsed normally. -/
def runOneTool (dm : List DiffEntry) (ws base : String) (t : Tool) (st : ExecState) : RunStep :=
  let argv := t.path :: expandArgs t.args base
  let e := exec1 st argv
  if e.res = some .launchFail then
    { run := { tool := t, argv := argv, output := e.out, issues := [], launchFailed := true }
      st := e.st }
  else
    let d := dropGenerated ws (survivors dm ws e.out) e.st
    { run := { tool := t, argv := argv, output := e.out
               issues := d.1.map (fun fp => mkIssue t.name fp.1 fp.2)
               launchFailed := false }
      st := d.2 }

/-- Modelled from the spec: run the configured tools sequentially in
configuration order (spec section 4.3 step 6). -/
def runTools (dm : List DiffEntry) (ws base : String) : List Tool → ExecState →
    List ToolRun × ExecState
  | [], st => ([], st)
  | t :: ts, st =>
    let o := runOneTool dm ws base t st
    let r := runTools dm ws base ts o.st
    (o.run :: r.1, r.2)

/-- Modelled from the spec: obtain the diff for the job. Run
`git diff <base>...<head>`; if that exits non-zero (the base revision may not
exist, e.g. on the first commit of a branch) fall back to `git show <head>`
(spec section 4.3 step 3, `TestGetPatch`, `TestGetPatch_diffError`). -/
def getPatch (st : ExecState) (base head : String) : Except String String × ExecState :=
  let e := exec1 st ["git", "diff", base ++ "..." ++ head]
  match e.res with
  | none => (.ok e.out, e.st)
  | some (.nonZero _) =>
    let e2 := exec1 e.st ["git", "show", head]
    match e2.res with
    | none => (.ok e2.out, e2.st)
    | some _ => (.error "could not run git show", e2.st)
  | some .launchFail => (.error "could not run git diff", e.st)

/-- Total number of issues across all tool runs. -/
def totalIssues (runs : List ToolRun) : Nat :=
  (runs.map (fun r => r.issues.length)).sum

/-- Error-path result: the analysis is finalised as Error, the session is
still stopped (spec section 4.3 step 1: on all exit paths call stop). -/
def errResult (st : ExecState) (msg : String) : AnalyseResult :=
  { status := .error, toolRuns := [], log := st.log, usedPatch := "", workspace := ""
    sess := stop newSession, err := some msg }

/-- Modelled from the spec: the workspace-preparation phase that precedes
the tool loop. Steps: clone, fetch/checkout, diff (with the `git show`
fallback), `install-deps.sh`, `pwd`. On success it yields the effective patch
text and the workspace path; any failing step aborts with a description. -/
def prepRun (cmd1 cmd2 : List String) (base head : String) (st0 : ExecState) :
    Except String (String × String) × ExecState :=
  let e1 := exec1 st0 cmd1
  if e1.res.isSome then (.error "could not clone", e1.st) else
  let e2 := exec1 e1.st cmd2
  if e2.res.isSome then (.error "could not fetch base", e2.st) else
  let gp := getPatch e2.st base head
  match gp.1 with
  | .error msg => (.error msg, gp.2)
  | .ok patch =>
    let e4 := exec1 gp.2 ["install-deps.sh"]
    if e4.res.isSome then (.error "could not install dependencies", e4.st) else
    let e5 := exec1 e4.st ["pwd"]
    if e5.res.isSome then (.error "could not get workspace path", e5.st) else
    (.ok (patch, e5.out), e5.st)

/-- Modelled from the spec: the engine body after the event-specific clone
commands are chosen. Prepare the workspace, then run the tool loop; an empty
diff skips the tools and the analysis is Success (spec section 4.3 edge
cases). Finalise per the status law: Error on a pre-tool failure, else
Failure iff any issue exists, else Success. -/
def analyseFrom (tools : List Tool) (cmd1 cmd2 : List String) (base head : String)
    (st0 : ExecState) : AnalyseResult :=
  let p := prepRun cmd1 cmd2 base head st0
  match p.1 with
  | .error msg => errResult p.2 msg
  | .ok pw =>
    if pw.1 = "" then
      { status := .success, toolRuns := [], log := p.2.log, usedPatch := pw.1
        workspace := pw.2, sess := stop newSession, err := none }
    else
      let r := runTools (parseDiff pw.1) pw.2 base tools p.2
      { status := if 0 < totalIssues r.1 then .failure else .success
        toolRuns := r.1, log := r.2.log, usedPatch := pw.1, workspace := pw.2
        sess := stop newSession, err := none }

/-- Modelled from the spec: the engine's single public operation. For a
pull-request job: shallow single-branch clone of the head ref, shallow fetch
of the base ref, diff target `FETCH_HEAD...<head-ref>` and base ref
`FETCH_HEAD` for placeholder expansion. For a push job: plain clone, checkout
of the head ref, diff target `<base-ref>...<head-ref>`. Any other event kind
is a descriptive error. -/
def analyse (tools : List Tool) (cfg : Config) (script : Nat → String × Option ExecErr) :
    AnalyseResult :=
  let st0 : ExecState := { script := script, idx := 0, log := [] }
  match cfg.eventType with
  | .pullRequest =>
    analyseFrom tools
      ["git", "clone", "--depth", "1", "--branch", cfg.headRef, "--single-branch", cfg.headURL, "."]
      ["git", "fetch", "--depth", "1", cfg.baseURL, cfg.baseRef]
      "FETCH_HEAD" cfg.headRef st0
  | .push =>
    analyseFrom tools
      ["git", "clone", cfg.headURL, "."]
      ["git", "checkout", cfg.headRef]
      cfg.baseRef cfg.headRef st0
  | .other => errResult st0 "unknown event type"

/-- The base ref substituted for `%BASE_BRANCH%` and used as the diff base:
the literal `FETCH_HEAD` for pull-request jobs, the configured base ref for
push jobs. -/
def baseOf (cfg : Config) : String :=
  match cfg.eventType with
  | .pullRequest => "FETCH_HEAD"
  | .push => cfg.baseRef
  | .other => ""

/-! ## Concrete fixtures from the test file -/

/-- Turn a finite response list into a session script (extra calls would see
a successful empty response; the fixtures never reach them). -/
def scriptOfList (l : List (String × Option ExecErr)) : Nat → String × Option ExecErr :=
  fun i => l.getD i ("", none)

/-- The unified diff used by `TestAnalyse_pr` and `TestAnalyse_push`. -/
def fxDiff : String :=
  "diff --git a/subdir/main.go b/subdir/main.go\nnew file mode 100644\nindex 0000000..6362395\n--- /dev/null\n+++ b/main.go\n@@ -0,0 +1,1 @@\n+var _ = fmt.Sprintln()"

/-- The tool configuration used by both analysis tests. -/
def fxTools : List Tool :=
  [ { id := 1, name := "Name1", path := "tool1", args := "-flag %BASE_BRANCH% ./..." }
  , { id := 2, name := "Name2", path := "tool2", args := "" }
  , { id := 3, name := "Name2", path := "tool3", args := "" } ]

/-- The pull-request job configuration of `TestAnalyse_pr`. -/
def fxCfgPr : Config :=
  { eventType := .pullRequest, baseURL := "base-url", baseRef := "base-branch"
    headURL := "head-url", headRef := "head-branch" }

/-- The push job configuration of `TestAnalyse_push`. -/
def fxCfgPush : Config :=
  { eventType := .push, baseURL := "base-url", baseRef := "abcde~1"
    headURL := "head-url", headRef := "abcde" }

/-- The scripted executor responses shared by both analysis tests. -/
def fxScript : Nat → String × Option ExecErr :=
  scriptOfList
    [ ("", none)                                            -- git clone
    , ("", none)                                            -- git fetch / checkout
    , (fxDiff, none)                                        -- git diff
    , ("", none)                                            -- install-deps.sh
    , ("/go/src/gopherci", none)                            -- pwd
    , ("main.go:1: error1", none)                           -- tool 1
    , ("file is not generated", some (.nonZero 1))          -- isFileGenerated
    , ("/go/src/gopherci/main.go:1: error2", none)          -- tool 2, absolute path
    , ("file is not generated", some (.nonZero 1))          -- isFileGenerated
    , ("main.go:1: error3", none)                           -- tool 3, generated file
    , ("file is generated", none) ]                         -- isFileGenerated

/-! ## Specification-side predicates used to state the claims -/

/-- Whether an `Except` is an error. -/
def isErr {α : Type} : Except String α → Bool
  | .error _ => true
  | .ok _ => false

/-- Modelled from the spec: whether a step before tool execution fails for a
given job and session script. In consumption order these are: the event-kind
dispatch, clone (response 0), fetch or checkout (response 1), `git diff`
(response 2, falling back to `git show` on a non-zero exit, response 3),
`install-deps.sh`, and `pwd`. -/
def prepFailsBody (script : Nat → String × Option ExecErr) : Bool :=
  (script 0).2.isSome || (script 1).2.isSome ||
  (match (script 2).2 with
   | none => (script 3).2.isSome || (script 4).2.isSome
   | some (.nonZero _) => (script 3).2.isSome || (script 4).2.isSome || (script 5).2.isSome
   | some .launchFail => true)

/-- Modelled from the spec: see `prepFailsBody`; a job of unknown kind fails
before tool execution as well. -/
def prepFails (cfg : Config) (script : Nat → String × Option ExecErr) : Bool :=
  match cfg.eventType with
  | .other => true
  | _ => prepFailsBody script

/-- Diff-scoping well-formedness of one recorded tool run: the argv is the
expanded template, and the issues are an order-preserving selection of the
diff-surviving findings parsed from the tool's output. -/
def GoodRun (dm : List DiffEntry) (ws base : String) (run : ToolRun) : Prop :=
  run.argv = run.tool.path :: expandArgs run.tool.args base ∧
  ∃ kept : List (Finding × Nat), kept.Sublist (survivors dm ws run.output) ∧
    run.issues = kept.map (fun fp => mkIssue run.tool.name fp.1 fp.2)

/-- Two executor states that are at the same point of execution and whose
scripts agree from that point on. -/
def Agree (s1 s2 : ExecState) : Prop :=
  s1.idx = s2.idx ∧ s1.log = s2.log ∧ ∀ j, s1.idx ≤ j → s1.script j = s2.script j

/-! ## Additional concrete fixtures for counterexamples and witnesses -/

/-- A script on which every command succeeds, the diff is empty, and a lone
tool's launch fails: clone, checkout, `git diff` (empty output), deps, `pwd`
all succeed. -/
def cxScriptEmptyDiff : Nat → String × Option ExecErr :=
  scriptOfList
    [ ("", none), ("", none), ("", none), ("", none), ("/w", none) ]

/-- A script whose workspace preparation succeeds with a non-empty diff and
whose single tool fails to launch. -/
def cxScriptLaunchFail : Nat → String × Option ExecErr :=
  scriptOfList
    [ ("", none), ("", none), (fxDiff, none), ("", none), ("/w", none)
    , ("", some .launchFail) ]

/-- A single no-argument tool for the counterexample runs. -/
def cxTool : Tool := { id := 7, name := "NameX", path := "toolx", args := "" }

/-- One-command script for `getPatch`: `git diff` succeeds
(`TestGetPatch`). -/
def c6ScriptOk : Nat → String × Option ExecErr :=
  scriptOfList [("git diff patch", none)]

/-- Two-command script for `getPatch`: `git diff` exits 128, `git show`
succeeds (`TestGetPatch_diffError`). -/
def c6ScriptFallback : Nat → String × Option ExecErr :=
  scriptOfList [("git diff output", some (.nonZero 128)), ("git show patch", none)]

/-- One-tool script whose tool run exits non-zero with output. -/
def c8ScriptNonZero : Nat → String × Option ExecErr :=
  scriptOfList [("o", some (.nonZero 1))]

/-- One-tool script whose tool run exits 0 with the same output. -/
def c8ScriptZero : Nat → String × Option ExecErr :=
  scriptOfList [("o", none)]

/-- One-tool script whose tool fails to launch. -/
def c8ScriptLaunch : Nat → String × Option ExecErr :=
  scriptOfList [("o", some .launchFail)]

/-- The model reproduces `TestAnalyse_pr`: per-tool issues, executed argv
sequence, session stopped, no error, and status Failure per the status law. -/
theorem analyse_pr_fixture :
    (analyse fxTools fxCfgPr fxScript).toolRuns.map (fun r => (r.tool.id, r.issues)) =
      [ (1, [{ path := "main.go", line := 1, hunkPos := 1, issue := "Name1: error1" }])
      , (2, [{ path := "main.go", line := 1, hunkPos := 1, issue := "Name2: error2" }])
      , (3, []) ]
    ∧ (analyse fxTools fxCfgPr fxScript).log =
      [ ["git", "clone", "--depth", "1", "--branch", "head-branch", "--single-branch", "head-url", "."]
      , ["git", "fetch", "--depth", "1", "base-url", "base-branch"]
      , ["git", "diff", "FETCH_HEAD...head-branch"]
      , ["install-deps.sh"]
      , ["pwd"]
      , ["tool1", "-flag", "FETCH_HEAD", "./..."]
      , ["isFileGenerated", "/go/src/gopherci", "main.go"]
      , ["tool2"]
      , ["isFileGenerated", "/go/src/gopherci", "main.go"]
      , ["tool3"]
      , ["isFileGenerated", "/go/src/gopherci", "main.go"] ]
    ∧ (analyse fxTools fxCfgPr fxScript).sess.stops = 1
    ∧ (analyse fxTools fxCfgPr fxScript).err = none
    ∧ (analyse fxTools fxCfgPr fxScript).status = .failure := by
  decide

/-- The model reproduces `TestAnalyse_push`: same issues, push argv sequence
with the configured base ref expanded into the tool arguments. -/
theorem analyse_push_fixture :
    (analyse fxTools fxCfgPush fxScript).toolRuns.map (fun r => (r.tool.id, r.issues)) =
      [ (1, [{ path := "main.go", line := 1, hunkPos := 1, issue := "Name1: error1" }])
      , (2, [{ path := "main.go", line := 1, hunkPos := 1, issue := "Name2: error2" }])
      , (3, []) ]
    ∧ (analyse fxTools fxCfgPush fxScript).log =
      [ ["git", "clone", "head-url", "."]
      , ["git", "checkout", "abcde"]
      , ["git", "diff", "abcde~1...abcde"]
      , ["install-deps.sh"]
      , ["pwd"]
      , ["tool1", "-flag", "abcde~1", "./..."]
      , ["isFileGenerated", "/go/src/gopherci", "main.go"]
      , ["tool2"]
      , ["isFileGenerated", "/go/src/gopherci", "main.go"]
      , ["tool3"]
      , ["isFileGenerated", "/go/src/gopherci", "main.go"] ]
    ∧ (analyse fxTools fxCfgPush fxScript).err = none := by
  decide

/-- The model reproduces `TestAnalyse_unknown`: a job that is neither a push
nor a pull request is a descriptive error. -/
theorem analyse_unknown_fixture :
    (analyse [] { eventType := .other, baseURL := "", baseRef := "", headURL := "", headRef := "" }
      fxScript).err.isSome = true := by
  decide

/-! ## Character-list lemmas -/

theorem splitOnCharCore_cons (c a : Char) (rest : List Char) :
    splitOnCharCore c (a :: rest) =
      if a = c then ([], (splitOnCharCore c rest).1 :: (splitOnCharCore c rest).2)
      else (a :: (splitOnCharCore c rest).1, (splitOnCharCore c rest).2) := by
  by_cases hac : a = c <;> simp [splitOnCharCore, hac]

theorem splitOnCharCore_append_cons (c : Char) (l₁ l₂ : List Char) (h : c ∉ l₁) :
    splitOnCharCore c (l₁ ++ c :: l₂) =
      (l₁, (splitOnCharCore c l₂).1 :: (splitOnCharCore c l₂).2) := by
  induction l₁ with
  | nil => simp [splitOnCharCore_cons]
  | cons a as ih =>
    have ha : a ≠ c := fun hac => h (hac ▸ List.mem_cons_self a as)
    have h' : c ∉ as := fun hc => h (List.mem_cons_of_mem a hc)
    simp [splitOnCharCore_cons, ha, ih h']

theorem splitOnChar_append_cons (c : Char) (l₁ l₂ : List Char) (h : c ∉ l₁) :
    splitOnChar c (l₁ ++ c :: l₂) = l₁ :: splitOnChar c l₂ := by
  simp [splitOnChar, splitOnCharCore_append_cons c l₁ l₂ h]

theorem splitOnCharCore_of_not_mem (c : Char) (l : List Char) (h : c ∉ l) :
    splitOnCharCore c l = (l, []) := by
  induction l with
  | nil => rfl
  | cons a as ih =>
    have ha : a ≠ c := fun hac => h (hac ▸ List.mem_cons_self a as)
    have h' : c ∉ as := fun hc => h (List.mem_cons_of_mem a hc)
    simp [splitOnCharCore_cons, ha, ih h']

theorem splitOnChar_of_not_mem (c : Char) (l : List Char) (h : c ∉ l) :
    splitOnChar c l = [l] := by
  simp [splitOnChar, splitOnCharCore_of_not_mem c l h]

theorem joinChar_cons_cons (c : Char) (p q : List Char) (ps : List (List Char)) :
    joinChar c (p :: q :: ps) = p ++ c :: joinChar c (q :: ps) := rfl

theorem joinChar_splitOnCharCore (c : Char) (l : List Char) :
    joinChar c ((splitOnCharCore c l).1 :: (splitOnCharCore c l).2) = l := by
  induction l with
  | nil => rfl
  | cons a as ih =>
    rw [splitOnCharCore_cons]
    by_cases hac : a = c
    · subst hac
      rw [if_pos rfl]
      show joinChar a ([] :: (splitOnCharCore a as).1 :: (splitOnCharCore a as).2) = a :: as
      rw [joinChar_cons_cons]
      simpa using ih
    · rw [if_neg hac]
      show joinChar c ((a :: (splitOnCharCore c as).1) :: (splitOnCharCore c as).2) = a :: as
      cases hsp : (splitOnCharCore c as).2 with
      | nil =>
        rw [hsp] at ih
        simpa [joinChar] using ih
      | cons q ps =>
        rw [hsp] at ih
        rw [joinChar_cons_cons] at ih ⊢
        simp only [List.cons_append]
        rw [ih]

theorem joinChar_splitOnChar (c : Char) (l : List Char) :
    joinChar c (splitOnChar c l) = l :=
  joinChar_splitOnCharCore c l

theorem isPrefixOf_append (l r : List Char) : l.isPrefixOf (l ++ r) = true := by
  induction l with
  | nil => cases r with | nil => rfl | cons b bs => rfl
  | cons a as ih => simp [List.isPrefixOf, ih]

/-- Stripping the workspace prefix from a workspace-absolute path leaves the
repository-relative remainder. -/
theorem stripWorkspace_append (ws p : List Char) :
    stripWorkspace ws (ws ++ '/' :: p) = p := by
  have h1 : ws ++ '/' :: p = (ws ++ ['/']) ++ p := by simp
  have h2 : (ws ++ ['/']).isPrefixOf (ws ++ '/' :: p) = true := by
    rw [h1]; exact isPrefixOf_append _ _
  have h3 : (ws ++ ['/']).length = ws.length + 1 := by simp
  unfold stripWorkspace
  rw [h2]
  simp only [if_true]
  rw [h1, ← h3, List.drop_left]

/-! ## Executor-state lemmas -/

theorem exec1_script (s : ExecState) (a : List String) : (exec1 s a).st.script = s.script := rfl

theorem exec1_idx (s : ExecState) (a : List String) : (exec1 s a).st.idx = s.idx + 1 := rfl

theorem exec1_log (s : ExecState) (a : List String) : (exec1 s a).st.log = s.log ++ [a] := rfl

theorem exec1_res (s : ExecState) (a : List String) : (exec1 s a).res = (s.script s.idx).2 := rfl

theorem exec1_out (s : ExecState) (a : List String) : (exec1 s a).out = (s.script s.idx).1 := rfl

/-! ## `dropGenerated` lemmas -/

theorem dropGenerated_script (ws : String) (l : List (Finding × Nat)) (st : ExecState) :
    (dropGenerated ws l st).2.script = st.script := by
  induction l generalizing st with
  | nil => rfl
  | cons fp rest ih => simpa [dropGenerated] using ih (exec1 st _).st

theorem dropGenerated_idx (ws : String) (l : List (Finding × Nat)) (st : ExecState) :
    (dropGenerated ws l st).2.idx = st.idx + l.length := by
  induction l generalizing st with
  | nil => rfl
  | cons fp rest ih =>
    show (dropGenerated ws rest (exec1 st _).st).2.idx = st.idx + (rest.length + 1)
    rw [ih (exec1 st _).st, exec1_idx]
    omega

theorem dropGenerated_log (ws : String) (l : List (Finding × Nat)) (st : ExecState) :
    (dropGenerated ws l st).2.log =
      st.log ++ l.map (fun fp => ["isFileGenerated", ws, fp.1.path]) := by
  induction l generalizing st with
  | nil => simp [dropGenerated]
  | cons fp rest ih =>
    show (dropGenerated ws rest (exec1 st _).st).2.log = _
    rw [ih (exec1 st _).st, exec1_log]
    simp

theorem dropGenerated_kept (ws : String) (l : List (Finding × Nat)) (st : ExecState) :
    (dropGenerated ws l st).1 =
      (List.enumFrom st.idx l).filterMap
        (fun p => if (st.script p.1).2.isSome then some p.2 else none) := by
  induction l generalizing st with
  | nil => rfl
  | cons fp rest ih =>
    show (if (exec1 st _).res.isSome then
            fp :: (dropGenerated ws rest (exec1 st _).st).1
          else (dropGenerated ws rest (exec1 st _).st).1) = _
    rw [ih (exec1 st _).st]
    rw [List.enumFrom_cons, List.filterMap_cons]
    rw [exec1_res, exec1_idx, exec1_script]
    by_cases hc : (st.script st.idx).2.isSome <;> simp [hc]

theorem dropGenerated_sublist (ws : String) (l : List (Finding × Nat)) (st : ExecState) :
    ((dropGenerated ws l st).1).Sublist l := by
  induction l generalizing st with
  | nil => simp [dropGenerated]
  | cons fp rest ih =>
    show (if (exec1 st ["isFileGenerated", ws, fp.1.path]).res.isSome then
            fp :: (dropGenerated ws rest (exec1 st ["isFileGenerated", ws, fp.1.path]).st).1
          else (dropGenerated ws rest (exec1 st ["isFileGenerated", ws, fp.1.path]).st).1).Sublist
      (fp :: rest)
    by_cases hc : (exec1 st ["isFileGenerated", ws, fp.1.path]).res.isSome
    · rw [if_pos hc]
      exact (ih (exec1 st ["isFileGenerated", ws, fp.1.path]).st).cons₂ fp
    · rw [if_neg hc]
      exact (ih (exec1 st ["isFileGenerated", ws, fp.1.path]).st).cons fp

/-! ## `survivors` lemmas -/

/-- Every surviving finding carries exactly the diff parser's hunk position
for its (path, line), and came from the parsed tool output. -/
theorem survivors_lookup (dm : List DiffEntry) (ws out : String) (fp : Finding × Nat)
    (h : fp ∈ survivors dm ws out) :
    lookupDiff dm fp.1.path fp.1.line = some fp.2 ∧ fp.1 ∈ parseOutput ws out := by
  rcases List.mem_filterMap.mp h with ⟨f, hf, hmap⟩
  rcases Option.map_eq_some'.mp hmap with ⟨pos, hpos, hpair⟩
  cases hpair
  exact ⟨hpos, hf⟩

/-! ## `runOneTool` and `runTools` lemmas -/

theorem runOneTool_script (dm : List DiffEntry) (ws base : String) (t : Tool) (st : ExecState) :
    (runOneTool dm ws base t st).st.script = st.script := by
  unfold runOneTool
  by_cases hl : (exec1 st (t.path :: expandArgs t.args base)).res = some .launchFail
  · simp [hl, exec1_script]
  · simp [hl, dropGenerated_script, exec1_script]

theorem runOneTool_tool (dm : List DiffEntry) (ws base : String) (t : Tool) (st : ExecState) :
    (runOneTool dm ws base t st).run.tool = t := by
  unfold runOneTool
  by_cases hl : (exec1 st (t.path :: expandArgs t.args base)).res = some .launchFail
  · simp [hl]
  · simp [hl]

theorem runOneTool_argv (dm : List DiffEntry) (ws base : String) (t : Tool) (st : ExecState) :
    (runOneTool dm ws base t st).run.argv = t.path :: expandArgs t.args base := by
  unfold runOneTool
  by_cases hl : (exec1 st (t.path :: expandArgs t.args base)).res = some .launchFail
  · simp [hl]
  · simp [hl]

theorem runOneTool_log (dm : List DiffEntry) (ws base : String) (t : Tool) (st : ExecState) :
    ∃ Δ, (runOneTool dm ws base t st).st.log =
      st.log ++ (t.path :: expandArgs t.args base) :: Δ := by
  unfold runOneTool
  by_cases hl : (exec1 st (t.path :: expandArgs t.args base)).res = some .launchFail
  · exact ⟨[], by simp [hl, exec1_log]⟩
  · refine ⟨(survivors dm ws (exec1 st (t.path :: expandArgs t.args base)).out).map
      (fun fp => ["isFileGenerated", ws, fp.1.path]), ?_⟩
    simp [hl, dropGenerated_log, exec1_log]

/-- Every recorded tool run is well-formed: the argv is the expanded
template and the issues are an order-preserving selection of the
diff-surviving findings of the tool's recorded output. -/
theorem runOneTool_good (dm : List DiffEntry) (ws base : String) (t : Tool) (st : ExecState) :
    GoodRun dm ws base (runOneTool dm ws base t st).run := by
  unfold runOneTool GoodRun
  by_cases hl : (exec1 st (t.path :: expandArgs t.args base)).res = some .launchFail
  · refine ⟨by simp [hl], [], ?_⟩
    simp [hl]
  · refine ⟨by simp [hl],
      (dropGenerated ws (survivors dm ws (exec1 st (t.path :: expandArgs t.args base)).out)
        (exec1 st (t.path :: expandArgs t.args base)).st).1, ?_⟩
    simp only [hl, if_false]
    exact ⟨dropGenerated_sublist ws _ _, trivial⟩

theorem runTools_script (dm : List DiffEntry) (ws base : String) (ts : List Tool)
    (st : ExecState) : (runTools dm ws base ts st).2.script = st.script := by
  induction ts generalizing st with
  | nil => rfl
  | cons t rest ih =>
    show (runTools dm ws base rest (runOneTool dm ws base t st).st).2.script = st.script
    rw [ih, runOneTool_script]

theorem runTools_log_mono (dm : List DiffEntry) (ws base : String) (ts : List Tool)
    (st : ExecState) : ∃ Δ, (runTools dm ws base ts st).2.log = st.log ++ Δ := by
  induction ts generalizing st with
  | nil => exact ⟨[], by simp [runTools]⟩
  | cons t rest ih =>
    rcases ih (runOneTool dm ws base t st).st with ⟨Δ₂, h2⟩
    rcases runOneTool_log dm ws base t st with ⟨Δ₁, h1⟩
    refine ⟨(t.path :: expandArgs t.args base) :: Δ₁ ++ Δ₂, ?_⟩
    show (runTools dm ws base rest (runOneTool dm ws base t st).st).2.log = _
    rw [h2, h1]
    simp

theorem runTools_map_tool (dm : List DiffEntry) (ws base : String) (ts : List Tool)
    (st : ExecState) : ((runTools dm ws base ts st).1).map (fun r => r.tool) = ts := by
  induction ts generalizing st with
  | nil => rfl
  | cons t rest ih =>
    show ((runOneTool dm ws base t st).run ::
      (runTools dm ws base rest (runOneTool dm ws base t st).st).1).map (fun r => r.tool) = t :: rest
    rw [List.map_cons, runOneTool_tool, ih]

/-- Every run recorded by the tool loop is well-formed and its argv appears
in the final command log. -/
theorem runTools_good (dm : List DiffEntry) (ws base : String) (ts : List Tool)
    (st : ExecState) (run : ToolRun) (h : run ∈ (runTools dm ws base ts st).1) :
    GoodRun dm ws base run ∧ run.argv ∈ (runTools dm ws base ts st).2.log := by
  induction ts generalizing st with
  | nil => simp [runTools] at h
  | cons t rest ih =>
    have hshape : (runTools dm ws base (t :: rest) st).1 =
        (runOneTool dm ws base t st).run ::
          (runTools dm ws base rest (runOneTool dm ws base t st).st).1 := rfl
    have hlog : (runTools dm ws base (t :: rest) st).2.log =
        (runTools dm ws base rest (runOneTool dm ws base t st).st).2.log := rfl
    rw [hshape] at h
    rcases List.mem_cons.mp h with hh | hh
    · subst hh
      refine ⟨runOneTool_good dm ws base t st, ?_⟩
      rw [hlog]
      rcases runTools_log_mono dm ws base rest (runOneTool dm ws base t st).st with ⟨Δ₂, h2⟩
      rcases runOneTool_log dm ws base t st with ⟨Δ₁, h1⟩
      rw [h2, h1, runOneTool_argv]
      simp
    · rcases ih (runOneTool dm ws base t st).st hh with ⟨hg, hm⟩
      exact ⟨hg, by rw [hlog]; exact hm⟩

/-! ## `getPatch` and `prepRun` lemmas -/

theorem getPatch_script (st : ExecState) (b hd : String) :
    (getPatch st b hd).2.script = st.script := by
  unfold getPatch
  rcases h : (exec1 st ["git", "diff", b ++ "..." ++ hd]).res with _ | e
  · simp [h, exec1_script]
  · cases e with
    | nonZero c =>
      rcases h2 : (exec1 (exec1 st ["git", "diff", b ++ "..." ++ hd]).st ["git", "show", hd]).res
        with _ | e2 <;> simp [h, h2, exec1_script]
    | launchFail => simp [h, exec1_script]

theorem prepRun_script (c1 c2 : List String) (b hd : String) (st0 : ExecState) :
    (prepRun c1 c2 b hd st0).2.script = st0.script := by
  unfold prepRun
  by_cases h0 : (exec1 st0 c1).res.isSome
  · simp [h0, exec1_script]
  · by_cases h1 : (exec1 (exec1 st0 c1).st c2).res.isSome
    · simp [h0, h1, exec1_script]
    · rcases hg : (getPatch (exec1 (exec1 st0 c1).st c2).st b hd).1 with msg | patch
      · have := getPatch_script (exec1 (exec1 st0 c1).st c2).st b hd
        simp only [h0, h1, hg, if_false, Bool.false_eq_true]
        simpa [exec1_script] using this
      · have hgs := getPatch_script (exec1 (exec1 st0 c1).st c2).st b hd
        by_cases h4 : (exec1 (getPatch (exec1 (exec1 st0 c1).st c2).st b hd).2
            ["install-deps.sh"]).res.isSome
        · simp only [h0, h1, hg, h4, if_true, if_false, Bool.false_eq_true]
          simpa [exec1_script] using hgs
        · by_cases h5 : (exec1 (exec1 (getPatch (exec1 (exec1 st0 c1).st c2).st b hd).2
              ["install-deps.sh"]).st ["pwd"]).res.isSome
          · simp only [h0, h1, hg, h4, h5, if_true, if_false, Bool.false_eq_true]
            simpa [exec1_script] using hgs
          · simp only [h0, h1, hg, h4, h5, if_true, if_false, Bool.false_eq_true]
            simpa [exec1_script] using hgs

/-- On success, the preparation log starts with the clone command, the
fetch/checkout command, and the `git diff` command, in that order. -/
theorem prepRun_ok_log (c1 c2 : List String) (b hd : String) (st0 : ExecState)
    (pw : String × String) (h : (prepRun c1 c2 b hd st0).1 = .ok pw) :
    ∃ Δ, (prepRun c1 c2 b hd st0).2.log =
      st0.log ++ c1 :: c2 :: ["git", "diff", b ++ "..." ++ hd] :: Δ := by
  simp only [prepRun] at h ⊢
  by_cases h0 : (exec1 st0 c1).res.isSome
  · rw [if_pos h0] at h; cases h
  · rw [if_neg h0] at h ⊢
    by_cases h1 : (exec1 (exec1 st0 c1).st c2).res.isSome
    · rw [if_pos h1] at h; cases h
    · rw [if_neg h1] at h ⊢
      rcases hg : (getPatch (exec1 (exec1 st0 c1).st c2).st b hd).1 with msg | patch
      · rw [hg] at h; cases h
      · have hglog : ∃ Δ₀, (getPatch (exec1 (exec1 st0 c1).st c2).st b hd).2.log =
            st0.log ++ c1 :: c2 :: ["git", "diff", b ++ "..." ++ hd] :: Δ₀ := by
          unfold getPatch
          rcases hr : (exec1 (exec1 (exec1 st0 c1).st c2).st
              ["git", "diff", b ++ "..." ++ hd]).res with _ | e
          · exact ⟨[], by simp [hr, exec1_log]⟩
          · cases e with
            | nonZero c =>
              rcases hr2 : (exec1 (exec1 (exec1 (exec1 st0 c1).st c2).st
                  ["git", "diff", b ++ "..." ++ hd]).st ["git", "show", hd]).res with _ | e2
              · exact ⟨[["git", "show", hd]], by simp [hr, hr2, exec1_log]⟩
              · exact ⟨[["git", "show", hd]], by simp [hr, hr2, exec1_log]⟩
            | launchFail => exact ⟨[], by simp [hr, exec1_log]⟩
        rcases hglog with ⟨Δ₀, hΔ₀⟩
        by_cases h4 : (exec1 (getPatch (exec1 (exec1 st0 c1).st c2).st b hd).2
            ["install-deps.sh"]).res.isSome
        · exfalso; revert h; simp [hg, h4]
        · by_cases h5 : (exec1 (exec1 (getPatch (exec1 (exec1 st0 c1).st c2).st b hd).2
              ["install-deps.sh"]).st ["pwd"]).res.isSome
          · exfalso; revert h; simp [hg, h4, h5]
          · refine ⟨Δ₀ ++ [["install-deps.sh"], ["pwd"]], ?_⟩
            simp only [hg]
            rw [if_neg h4, if_neg h5]
            show (exec1 (exec1 (getPatch (exec1 (exec1 st0 c1).st c2).st b hd).2
              ["install-deps.sh"]).st ["pwd"]).st.log = _
            rw [exec1_log, exec1_log, hΔ₀]
            simp

/-- Failure of the preparation phase is exactly a failing scripted response
at one of the steps before tool execution, in consumption order. -/
theorem prepRun_error_iff (c1 c2 : List String) (b hd : String)
    (script : Nat → String × Option ExecErr) :
    isErr (prepRun c1 c2 b hd { script := script, idx := 0, log := [] }).1 =
      prepFailsBody script := by
  by_cases h0 : (script 0).2.isSome
  · simp [prepRun, exec1, isErr, prepFailsBody, h0]
  · by_cases h1 : (script 1).2.isSome
    · simp [prepRun, exec1, isErr, prepFailsBody, h0, h1]
    · rcases h2 : (script 2).2 with _ | e2
      · by_cases h3 : (script 3).2.isSome <;> by_cases h4 : (script 4).2.isSome <;>
          simp [prepRun, getPatch, exec1, isErr, prepFailsBody, h0, h1, h2, h3, h4]
      · cases e2 with
        | nonZero c =>
          rcases h3 : (script 3).2 with _ | e3
          · by_cases h4 : (script 4).2.isSome <;> by_cases h5 : (script 5).2.isSome <;>
              simp [prepRun, getPatch, exec1, isErr, prepFailsBody, h0, h1, h2, h3, h4, h5]
          · simp [prepRun, getPatch, exec1, isErr, prepFailsBody, h0, h1, h2, h3]
        | launchFail =>
          simp [prepRun, getPatch, exec1, isErr, prepFailsBody, h0, h1, h2]

/-! ## Master lemma for successful runs -/

/-- A run of `analyseFrom` that returns no error either had an empty diff
(and recorded no tool runs), or its tool runs and final log are exactly
those of the tool loop started from the preparation state. -/
theorem analyseFrom_ok (tools : List Tool) (c1 c2 : List String) (b hd : String)
    (st0 : ExecState) (h : (analyseFrom tools c1 c2 b hd st0).err = none) :
    ((analyseFrom tools c1 c2 b hd st0).usedPatch = "" ∧
      (analyseFrom tools c1 c2 b hd st0).toolRuns = []) ∨
    ((analyseFrom tools c1 c2 b hd st0).usedPatch ≠ "" ∧
      (analyseFrom tools c1 c2 b hd st0).toolRuns =
        (runTools (parseDiff (analyseFrom tools c1 c2 b hd st0).usedPatch)
          (analyseFrom tools c1 c2 b hd st0).workspace b tools (prepRun c1 c2 b hd st0).2).1 ∧
      (analyseFrom tools c1 c2 b hd st0).log =
        (runTools (parseDiff (analyseFrom tools c1 c2 b hd st0).usedPatch)
          (analyseFrom tools c1 c2 b hd st0).workspace b tools (prepRun c1 c2 b hd st0).2).2.log) := by
  rcases hp : (prepRun c1 c2 b hd st0).1 with msg | pw
  · exfalso
    revert h
    simp [analyseFrom, hp, errResult]
  · by_cases hemp : pw.1 = ""
    · left
      simp [analyseFrom, hp, hemp]
    · right
      simp [analyseFrom, hp, hemp]

/-- On success, the engine's workspace preparation succeeded and the final
log extends the preparation log. -/
theorem analyseFrom_ok_prep (tools : List Tool) (c1 c2 : List String) (b hd : String)
    (st0 : ExecState) (h : (analyseFrom tools c1 c2 b hd st0).err = none) :
    ∃ pw Δ, (prepRun c1 c2 b hd st0).1 = .ok pw ∧
      (analyseFrom tools c1 c2 b hd st0).log = (prepRun c1 c2 b hd st0).2.log ++ Δ := by
  rcases hp : (prepRun c1 c2 b hd st0).1 with msg | pw
  · exfalso
    revert h
    simp [analyseFrom, hp, errResult]
  · by_cases hemp : pw.1 = ""
    · refine ⟨pw, [], rfl, ?_⟩
      simp [analyseFrom, hp, hemp]
    · rcases runTools_log_mono (parseDiff pw.1) pw.2 b tools (prepRun c1 c2 b hd st0).2
        with ⟨Δ, hΔ⟩
      refine ⟨pw, Δ, rfl, ?_⟩
      simp [analyseFrom, hp, hemp, hΔ]

/-- Every exit path of the engine body stops the session it obtained. -/
theorem analyseFrom_sess (tools : List Tool) (c1 c2 : List String) (b hd : String)
    (st0 : ExecState) : (analyseFrom tools c1 c2 b hd st0).sess = stop newSession := by
  rcases hp : (prepRun c1 c2 b hd st0).1 with msg | pw
  · simp [analyseFrom, hp, errResult]
  · by_cases hemp : pw.1 = "" <;> simp [analyseFrom, hp, hemp]

/-- The status law at the engine-body level: Error exactly when a
preparation step failed, Failure exactly when an issue exists, Success
exactly when preparation succeeded and no issue exists. -/
theorem analyseFrom_status (tools : List Tool) (c1 c2 : List String) (b hd : String)
    (script : Nat → String × Option ExecErr) :
    ((analyseFrom tools c1 c2 b hd { script := script, idx := 0, log := [] }).status = .error ↔
      prepFailsBody script = true)
    ∧ ((analyseFrom tools c1 c2 b hd { script := script, idx := 0, log := [] }).status = .failure ↔
        0 < totalIssues (analyseFrom tools c1 c2 b hd
          { script := script, idx := 0, log := [] }).toolRuns)
    ∧ ((analyseFrom tools c1 c2 b hd { script := script, idx := 0, log := [] }).status = .success ↔
        (prepFailsBody script = false ∧
          totalIssues (analyseFrom tools c1 c2 b hd
            { script := script, idx := 0, log := [] }).toolRuns = 0)) := by
  rcases hp : (prepRun c1 c2 b hd { script := script, idx := 0, log := [] }).1 with msg | pw
  · have hpf : prepFailsBody script = true := by
      rw [← prepRun_error_iff c1 c2 b hd script, hp]
      rfl
    simp [analyseFrom, hp, errResult, hpf, totalIssues]
  · have hpf : prepFailsBody script = false := by
      rw [← prepRun_error_iff c1 c2 b hd script, hp]
      rfl
    by_cases hemp : pw.1 = ""
    · simp [analyseFrom, hp, hemp, hpf, totalIssues]
    · by_cases hiss : 0 < totalIssues
        (runTools (parseDiff pw.1) pw.2 b tools
          (prepRun c1 c2 b hd { script := script, idx := 0, log := [] }).2).1
      · have hne : totalIssues (runTools (parseDiff pw.1) pw.2 b tools
            (prepRun c1 c2 b hd { script := script, idx := 0, log := [] }).2).1 ≠ 0 := by omega
        simp [analyseFrom, hp, hemp, hpf, hiss, hne]
      · have he0 : totalIssues (runTools (parseDiff pw.1) pw.2 b tools
            (prepRun c1 c2 b hd { script := script, idx := 0, log := [] }).2).1 = 0 := by omega
        simp [analyseFrom, hp, hemp, hpf, hiss, he0]

/-! ## Case lemmas for `runOneTool` and the tool loop -/

/-- Unfolding of the tool loop on a cons cell. -/
theorem runTools_cons (dm : List DiffEntry) (ws base : String) (t : Tool) (ts : List Tool)
    (st : ExecState) :
    runTools dm ws base (t :: ts) st =
      ((runOneTool dm ws base t st).run ::
        (runTools dm ws base ts (runOneTool dm ws base t st).st).1,
       (runTools dm ws base ts (runOneTool dm ws base t st).st).2) := rfl

/-- A tool whose launch fails is recorded with no issues; only the tool
command itself was executed. -/
theorem runOneTool_launch (dm : List DiffEntry) (ws base : String) (t : Tool) (st : ExecState)
    (h : (st.script st.idx).2 = some .launchFail) :
    runOneTool dm ws base t st =
      { run := { tool := t, argv := t.path :: expandArgs t.args base
                 output := (st.script st.idx).1, issues := [], launchFailed := true }
        st := (exec1 st (t.path :: expandArgs t.args base)).st } := by
  simp only [runOneTool]
  rw [if_pos (show (exec1 st (t.path :: expandArgs t.args base)).res = some ExecErr.launchFail
    from h)]
  rfl

/-- A tool that launches (exit 0 or non-zero alike) has its output parsed,
diff-scoped, filtered for generated files and recorded. -/
theorem runOneTool_notLaunch (dm : List DiffEntry) (ws base : String) (t : Tool) (st : ExecState)
    (h : (st.script st.idx).2 ≠ some .launchFail) :
    runOneTool dm ws base t st =
      { run := { tool := t, argv := t.path :: expandArgs t.args base
                 output := (st.script st.idx).1
                 issues := (dropGenerated ws (survivors dm ws (st.script st.idx).1)
                     (exec1 st (t.path :: expandArgs t.args base)).st).1.map
                   (fun fp => mkIssue t.name fp.1 fp.2)
                 launchFailed := false }
        st := (dropGenerated ws (survivors dm ws (st.script st.idx).1)
          (exec1 st (t.path :: expandArgs t.args base)).st).2 } := by
  simp only [runOneTool]
  rw [if_neg (show ¬(exec1 st (t.path :: expandArgs t.args base)).res = some ExecErr.launchFail
    from h)]
  rfl

/-! ## Agreement of sessions that differ only before the current position -/

theorem exec1_agree (s1 s2 : ExecState) (a : List String) (h : Agree s1 s2) :
    s1.script s1.idx = s2.script s2.idx ∧ Agree (exec1 s1 a).st (exec1 s2 a).st := by
  obtain ⟨hidx, hlog, hs⟩ := h
  refine ⟨by rw [← hidx]; exact hs s1.idx le_rfl, ⟨?_, ?_, ?_⟩⟩
  · rw [exec1_idx, exec1_idx, hidx]
  · rw [exec1_log, exec1_log, hlog]
  · intro j hj
    rw [exec1_script, exec1_script]
    refine hs j ?_
    rw [exec1_idx] at hj
    omega

theorem dropGenerated_agree (ws : String) (l : List (Finding × Nat)) (s1 s2 : ExecState)
    (h : Agree s1 s2) :
    (dropGenerated ws l s1).1 = (dropGenerated ws l s2).1 ∧
      Agree (dropGenerated ws l s1).2 (dropGenerated ws l s2).2 := by
  induction l generalizing s1 s2 with
  | nil => exact ⟨rfl, h⟩
  | cons fp rest ih =>
    obtain ⟨hcur, hA⟩ := exec1_agree s1 s2 ["isFileGenerated", ws, fp.1.path] h
    obtain ⟨hk, hA2⟩ := ih _ _ hA
    constructor
    · show (if (exec1 s1 ["isFileGenerated", ws, fp.1.path]).res.isSome then
              fp :: (dropGenerated ws rest (exec1 s1 ["isFileGenerated", ws, fp.1.path]).st).1
            else (dropGenerated ws rest (exec1 s1 ["isFileGenerated", ws, fp.1.path]).st).1) = _
      have hres : (exec1 s1 ["isFileGenerated", ws, fp.1.path]).res =
          (exec1 s2 ["isFileGenerated", ws, fp.1.path]).res := by
        rw [exec1_res, exec1_res, hcur]
      rw [hres, hk]
      rfl
    · exact hA2

theorem runOneTool_agree (dm : List DiffEntry) (ws base : String) (t : Tool)
    (s1 s2 : ExecState) (h : Agree s1 s2) :
    (runOneTool dm ws base t s1).run = (runOneTool dm ws base t s2).run ∧
      Agree (runOneTool dm ws base t s1).st (runOneTool dm ws base t s2).st := by
  obtain ⟨hcur, hA⟩ := exec1_agree s1 s2 (t.path :: expandArgs t.args base) h
  by_cases hl : (s1.script s1.idx).2 = some .launchFail
  · have hl2 : (s2.script s2.idx).2 = some .launchFail := by rw [← hcur]; exact hl
    rw [runOneTool_launch dm ws base t s1 hl, runOneTool_launch dm ws base t s2 hl2]
    exact ⟨by simp [hcur], hA⟩
  · have hl2 : (s2.script s2.idx).2 ≠ some .launchFail := by rw [← hcur]; exact hl
    rw [runOneTool_notLaunch dm ws base t s1 hl, runOneTool_notLaunch dm ws base t s2 hl2]
    rw [← hcur]
    obtain ⟨hk, hA2⟩ := dropGenerated_agree ws (survivors dm ws (s1.script s1.idx).1) _ _ hA
    exact ⟨by simp [hk], hA2⟩

theorem runTools_agree (dm : List DiffEntry) (ws base : String) (ts : List Tool)
    (s1 s2 : ExecState) (h : Agree s1 s2) :
    (runTools dm ws base ts s1).1 = (runTools dm ws base ts s2).1 ∧
      Agree (runTools dm ws base ts s1).2 (runTools dm ws base ts s2).2 := by
  induction ts generalizing s1 s2 with
  | nil => exact ⟨rfl, h⟩
  | cons t rest ih =>
    obtain ⟨hr, hA⟩ := runOneTool_agree dm ws base t s1 s2 h
    obtain ⟨hrs, hA2⟩ := ih _ _ hA
    rw [runTools_cons, runTools_cons]
    exact ⟨by simp [hr, hrs], hA2⟩

/-! ## Placeholder-count lemma -/

/-- Expanding the placeholder introduces the base ref exactly at the
placeholder's occurrences, provided it did not already occur. -/
theorem count_expandArgs (l : List String) (B : String) (hB : B ∉ l) :
    (l.map (fun a => if a = "%BASE_BRANCH%" then B else a)).count B =
      l.count "%BASE_BRANCH%" := by
  induction l with
  | nil => simp
  | cons a as ih =>
    have hB' : B ∉ as := fun hm => hB (List.mem_cons_of_mem a hm)
    have haB : a ≠ B := fun he => hB (he ▸ List.mem_cons_self a as)
    by_cases hp : a = "%BASE_BRANCH%"
    · subst hp
      simp [List.count_cons, ih hB']
    · simp [List.count_cons, ih hB', haB, hp, Ne.symm haB]

/-- Lifting of `analyseFrom_ok` to `analyse`: a run that returns no error
either had an empty effective diff (and recorded no tool runs), or recorded
exactly the tool loop's runs for the job's base ref. -/
theorem analyse_ok (tools : List Tool) (cfg : Config)
    (script : Nat → String × Option ExecErr)
    (h : (analyse tools cfg script).err = none) :
    ((analyse tools cfg script).usedPatch = "" ∧ (analyse tools cfg script).toolRuns = []) ∨
    ((analyse tools cfg script).usedPatch ≠ "" ∧
      ∃ st : ExecState,
        (analyse tools cfg script).toolRuns =
          (runTools (parseDiff (analyse tools cfg script).usedPatch)
            (analyse tools cfg script).workspace (baseOf cfg) tools st).1 ∧
        (analyse tools cfg script).log =
          (runTools (parseDiff (analyse tools cfg script).usedPatch)
            (analyse tools cfg script).workspace (baseOf cfg) tools st).2.log) := by
  rcases cfg with ⟨ev, bU, bR, hU, hR⟩
  cases ev with
  | pullRequest =>
    rcases analyseFrom_ok tools
        ["git", "clone", "--depth", "1", "--branch", hR, "--single-branch", hU, "."]
        ["git", "fetch", "--depth", "1", bU, bR] "FETCH_HEAD" hR
        { script := script, idx := 0, log := [] } h
      with hL | ⟨hne, hruns, hlog⟩
    · exact Or.inl hL
    · exact Or.inr ⟨hne,
        (prepRun ["git", "clone", "--depth", "1", "--branch", hR, "--single-branch", hU, "."]
          ["git", "fetch", "--depth", "1", bU, bR] "FETCH_HEAD" hR
          { script := script, idx := 0, log := [] }).2, hruns, hlog⟩
  | push =>
    rcases analyseFrom_ok tools ["git", "clone", hU, "."] ["git", "checkout", hR] bR hR
        { script := script, idx := 0, log := [] } h
      with hL | ⟨hne, hruns, hlog⟩
    · exact Or.inl hL
    · exact Or.inr ⟨hne,
        (prepRun ["git", "clone", hU, "."] ["git", "checkout", hR] bR hR
          { script := script, idx := 0, log := [] }).2, hruns, hlog⟩
  | other =>
    exfalso
    revert h
    simp [analyse, errResult]

/-! ## Claim theorems -/

/-- C1: every Issue persisted by a successful run has a (Path, Line) that is
an added line of the parsed effective diff and its HunkPos equals the diff
parser's hunk position for that (path, line); every tool finding whose
(path, line) has no hit in the diff map is discarded before persistence. -/
theorem claim_C1 (tools : List Tool) (cfg : Config)
    (script : Nat → String × Option ExecErr)
    (h : (analyse tools cfg script).err = none) :
    ∀ run ∈ (analyse tools cfg script).toolRuns,
      (∀ iss ∈ run.issues,
        lookupDiff (parseDiff (analyse tools cfg script).usedPatch) iss.path iss.line =
          some iss.hunkPos)
      ∧ (∀ f ∈ parseOutput (analyse tools cfg script).workspace run.output,
          lookupDiff (parseDiff (analyse tools cfg script).usedPatch) f.path f.line = none →
          ∀ iss ∈ run.issues, ¬(iss.path = f.path ∧ iss.line = f.line)) := by
  intro run hrun
  rcases analyse_ok tools cfg script h with ⟨hemp, hnil⟩ | ⟨hne, st, hruns, hlog⟩
  · rw [hnil] at hrun
    cases hrun
  · rw [hruns] at hrun
    obtain ⟨⟨hargv, kept, hsub, hiss⟩, hmem⟩ := runTools_good _ _ _ _ _ run hrun
    have hlk : ∀ iss ∈ run.issues,
        lookupDiff (parseDiff (analyse tools cfg script).usedPatch) iss.path iss.line =
          some iss.hunkPos := by
      intro iss hissm
      rw [hiss] at hissm
      rcases List.mem_map.mp hissm with ⟨fp, hfp, hmk⟩
      have hfp2 := hsub.subset hfp
      obtain ⟨hl, _⟩ := survivors_lookup _ _ _ fp hfp2
      rw [← hmk]
      exact hl
    refine ⟨hlk, ?_⟩
    intro f hf hnone iss hissm hcontr
    have hsome := hlk iss hissm
    rw [hcontr.1, hcontr.2, hnone] at hsome
    cases hsome

/-- Witness for C1: in the `TestAnalyse_pr` fixture, the persisted issue of
tool 1 points at the added line (main.go, 1) with hunk position 1. -/
theorem claim_C1_witness :
    lookupDiff (parseDiff (analyse fxTools fxCfgPr fxScript).usedPatch) "main.go" 1 =
      some 1 := by
  have h := claim_C1 fxTools fxCfgPr fxScript (by decide)
  exact (h { tool := { id := 1, name := "Name1", path := "tool1"
                       args := "-flag %BASE_BRANCH% ./..." }
             argv := ["tool1", "-flag", "FETCH_HEAD", "./..."]
             output := "main.go:1: error1"
             issues := [{ path := "main.go", line := 1, hunkPos := 1, issue := "Name1: error1" }]
             launchFailed := false } (by decide)).1
    { path := "main.go", line := 1, hunkPos := 1, issue := "Name1: error1" } (by decide)

/-- C3: the argv executed for each tool is the tool path followed by the
template fields with every `%BASE_BRANCH%` field replaced by the job's base
ref — the literal `FETCH_HEAD` for pull-request jobs, the configured base
ref for push jobs; the argv appears in the executed log; and no other
occurrence of the substituted value is introduced anywhere in the argv. -/
theorem claim_C3 (tools : List Tool) (cfg : Config)
    (script : Nat → String × Option ExecErr)
    (h : (analyse tools cfg script).err = none) :
    (cfg.eventType = .pullRequest → baseOf cfg = "FETCH_HEAD")
    ∧ (cfg.eventType = .push → baseOf cfg = cfg.baseRef)
    ∧ ∀ run ∈ (analyse tools cfg script).toolRuns,
        run.argv = run.tool.path :: expandArgs run.tool.args (baseOf cfg)
        ∧ run.argv ∈ (analyse tools cfg script).log
        ∧ (baseOf cfg ∉ fields run.tool.args → run.tool.path ≠ baseOf cfg →
            run.argv.count (baseOf cfg) = (fields run.tool.args).count "%BASE_BRANCH%") := by
  refine ⟨fun he => by simp [baseOf, he], fun he => by simp [baseOf, he], ?_⟩
  intro run hrun
  rcases analyse_ok tools cfg script h with ⟨hemp, hnil⟩ | ⟨hne, st, hruns, hlog⟩
  · rw [hnil] at hrun
    cases hrun
  · rw [hruns] at hrun
    obtain ⟨⟨hargv, kept, hsub, hiss⟩, hmem⟩ := runTools_good _ _ _ _ _ run hrun
    refine ⟨hargv, by rw [hlog]; exact hmem, ?_⟩
    intro hBnm hpne
    rw [hargv]
    show ((run.tool.path :: expandArgs run.tool.args (baseOf cfg)).count (baseOf cfg)) = _
    rw [List.count_cons]
    unfold expandArgs
    rw [count_expandArgs (fields run.tool.args) (baseOf cfg) hBnm]
    simp [hpne, Ne.symm hpne]

/-- Witness for C3: in the `TestAnalyse_pr` fixture, tool 1's executed argv
contains `FETCH_HEAD` exactly where the template had `%BASE_BRANCH%`. -/
theorem claim_C3_witness :
    (["tool1", "-flag", "FETCH_HEAD", "./..."] : List String).count "FETCH_HEAD" =
      (fields "-flag %BASE_BRANCH% ./...").count "%BASE_BRANCH%" := by
  have h := claim_C3 fxTools fxCfgPr fxScript (by decide)
  exact ((h.2.2 { tool := { id := 1, name := "Name1", path := "tool1"
                            args := "-flag %BASE_BRANCH% ./..." }
                  argv := ["tool1", "-flag", "FETCH_HEAD", "./..."]
                  output := "main.go:1: error1"
                  issues := [{ path := "main.go", line := 1, hunkPos := 1
                               issue := "Name1: error1" }]
                  launchFailed := false } (by decide)).2.2 (by decide) (by decide))

/-- C7: the three workspace commands issued before the tools are, in order —
for a pull-request job, the shallow single-branch clone of the head ref, the
shallow fetch of the base ref, and `git diff FETCH_HEAD...<head-ref>`; for a
push job, `git clone <head-url> .`, `git checkout <head-ref>`, and
`git diff <base-ref>...<head-ref>`. -/
theorem claim_C7 (tools : List Tool) (cfg : Config)
    (script : Nat → String × Option ExecErr) :
    (cfg.eventType = .pullRequest → (analyse tools cfg script).err = none →
      (analyse tools cfg script).log.take 3 =
        [ ["git", "clone", "--depth", "1", "--branch", cfg.headRef, "--single-branch",
            cfg.headURL, "."]
        , ["git", "fetch", "--depth", "1", cfg.baseURL, cfg.baseRef]
        , ["git", "diff", "FETCH_HEAD" ++ "..." ++ cfg.headRef] ])
    ∧ (cfg.eventType = .push → (analyse tools cfg script).err = none →
        (analyse tools cfg script).log.take 3 =
          [ ["git", "clone", cfg.headURL, "."]
          , ["git", "checkout", cfg.headRef]
          , ["git", "diff", cfg.baseRef ++ "..." ++ cfg.headRef] ]) := by
  rcases cfg with ⟨ev, bU, bR, hU, hR⟩
  constructor
  · intro hev h
    obtain rfl : ev = .pullRequest := hev
    rcases analyseFrom_ok_prep tools
        ["git", "clone", "--depth", "1", "--branch", hR, "--single-branch", hU, "."]
        ["git", "fetch", "--depth", "1", bU, bR] "FETCH_HEAD" hR
        { script := script, idx := 0, log := [] } h with ⟨pw, Δ, hok, hlog⟩
    rcases prepRun_ok_log
        ["git", "clone", "--depth", "1", "--branch", hR, "--single-branch", hU, "."]
        ["git", "fetch", "--depth", "1", bU, bR] "FETCH_HEAD" hR
        { script := script, idx := 0, log := [] } pw hok with ⟨Δ₀, hplog⟩
    show (analyseFrom tools
        ["git", "clone", "--depth", "1", "--branch", hR, "--single-branch", hU, "."]
        ["git", "fetch", "--depth", "1", bU, bR] "FETCH_HEAD" hR
        { script := script, idx := 0, log := [] }).log.take 3 = _
    rw [hlog, hplog]
    simp
  · intro hev h
    obtain rfl : ev = .push := hev
    rcases analyseFrom_ok_prep tools ["git", "clone", hU, "."] ["git", "checkout", hR] bR hR
        { script := script, idx := 0, log := [] } h with ⟨pw, Δ, hok, hlog⟩
    rcases prepRun_ok_log ["git", "clone", hU, "."] ["git", "checkout", hR] bR hR
        { script := script, idx := 0, log := [] } pw hok with ⟨Δ₀, hplog⟩
    show (analyseFrom tools ["git", "clone", hU, "."] ["git", "checkout", hR] bR hR
        { script := script, idx := 0, log := [] }).log.take 3 = _
    rw [hlog, hplog]
    simp

/-- Witness for C7 at the fixtures of `TestAnalyse_pr` and
`TestAnalyse_push`. -/
theorem claim_C7_witness :
    (analyse fxTools fxCfgPr fxScript).log.take 3 =
      [ ["git", "clone", "--depth", "1", "--branch", "head-branch", "--single-branch",
          "head-url", "."]
      , ["git", "fetch", "--depth", "1", "base-url", "base-branch"]
      , ["git", "diff", "FETCH_HEAD" ++ "..." ++ "head-branch"] ]
    ∧ (analyse fxTools fxCfgPush fxScript).log.take 3 =
      [ ["git", "clone", "head-url", "."]
      , ["git", "checkout", "abcde"]
      , ["git", "diff", "abcde~1" ++ "..." ++ "abcde"] ] :=
  ⟨(claim_C7 fxTools fxCfgPr fxScript).1 rfl (by decide),
   (claim_C7 fxTools fxCfgPush fxScript).2 rfl (by decide)⟩

/-- C10 (amended): after an error-free run with a non-empty effective diff,
the analysis contains exactly one ToolRun per configured tool in
configuration order — a tool all of whose findings were discarded still
appears, with an empty issue list — and within each ToolRun the issues are
an order-preserving selection (a sublist) of the diff-scoped candidates in
the order the tool emitted them; with an empty effective diff the tools are
skipped and no ToolRun is recorded. -/
theorem claim_C10 (tools : List Tool) (cfg : Config)
    (script : Nat → String × Option ExecErr)
    (h : (analyse tools cfg script).err = none) :
    ((analyse tools cfg script).usedPatch = "" → (analyse tools cfg script).toolRuns = [])
    ∧ ((analyse tools cfg script).usedPatch ≠ "" →
        (analyse tools cfg script).toolRuns.map (fun r => r.tool) = tools
        ∧ ∀ run ∈ (analyse tools cfg script).toolRuns,
            run.issues.Sublist
              ((survivors (parseDiff (analyse tools cfg script).usedPatch)
                  (analyse tools cfg script).workspace run.output).map
                (fun fp => mkIssue run.tool.name fp.1 fp.2))) := by
  rcases analyse_ok tools cfg script h with ⟨hemp, hnil⟩ | ⟨hne, st, hruns, hlog⟩
  · exact ⟨fun _ => hnil, fun hcontr => absurd hemp hcontr⟩
  · refine ⟨fun hcontr => absurd hcontr hne, fun _ => ⟨?_, ?_⟩⟩
    · rw [hruns, runTools_map_tool]
    · intro run hrun
      rw [hruns] at hrun
      obtain ⟨⟨hargv, kept, hsub, hiss⟩, hmem⟩ := runTools_good _ _ _ _ _ run hrun
      rw [hiss]
      exact hsub.map _

/-- Counterexample to C10 as stated: with an empty effective diff the run
returns no error yet records no ToolRun at all, although one tool is
configured. -/
theorem claim_C10_cex :
    (analyse [cxTool] fxCfgPush cxScriptEmptyDiff).err = none
    ∧ (analyse [cxTool] fxCfgPush cxScriptEmptyDiff).toolRuns.length = 0 := by
  decide

/-- Witness for C10 (amended) at the `TestAnalyse_pr` fixture: one ToolRun
per configured tool, in configuration order. -/
theorem claim_C10_witness :
    (analyse fxTools fxCfgPr fxScript).toolRuns.map (fun r => r.tool) = fxTools := by
  have h := claim_C10 fxTools fxCfgPr fxScript (by decide)
  exact (h.2 (by decide)).1

/-- C2 (amended): the final status is Failure iff at least one Issue exists
across all ToolRuns; Error iff a step before tool execution (event-kind
dispatch, clone, fetch/checkout, diff with its fallback, deps, pwd) failed;
and Success iff no such step failed and there are zero Issues. A tool launch
failure does not preclude Success. -/
theorem claim_C2 (tools : List Tool) (cfg : Config)
    (script : Nat → String × Option ExecErr) :
    ((analyse tools cfg script).status = .error ↔ prepFails cfg script = true)
    ∧ ((analyse tools cfg script).status = .failure ↔
        0 < totalIssues (analyse tools cfg script).toolRuns)
    ∧ ((analyse tools cfg script).status = .success ↔
        (prepFails cfg script = false ∧
          totalIssues (analyse tools cfg script).toolRuns = 0)) := by
  rcases cfg with ⟨ev, bU, bR, hU, hR⟩
  cases ev with
  | pullRequest =>
    have hpf : prepFails ⟨.pullRequest, bU, bR, hU, hR⟩ script = prepFailsBody script := rfl
    rw [hpf]
    exact analyseFrom_status tools
      ["git", "clone", "--depth", "1", "--branch", hR, "--single-branch", hU, "."]
      ["git", "fetch", "--depth", "1", bU, bR] "FETCH_HEAD" hR script
  | push =>
    have hpf : prepFails ⟨.push, bU, bR, hU, hR⟩ script = prepFailsBody script := rfl
    rw [hpf]
    exact analyseFrom_status tools ["git", "clone", hU, "."] ["git", "checkout", hR] bR hR script
  | other =>
    simp [analyse, errResult, prepFails, totalIssues]

/-- Counterexample to C2 as stated: a run whose only tool fails to launch
still finalises as Success with zero issues, although that tool did not
finish with exit code 0 or a non-zero exit. -/
theorem claim_C2_cex :
    (analyse [cxTool] fxCfgPush cxScriptLaunchFail).status = .success
    ∧ (analyse [cxTool] fxCfgPush cxScriptLaunchFail).toolRuns.any
        (fun r => r.launchFailed) = true := by
  decide

/-- Witness for C2 (amended) at the `TestAnalyse_pr` fixture: two issues
exist, so the status is Failure. -/
theorem claim_C2_witness :
    (analyse fxTools fxCfgPr fxScript).status = .failure :=
  (claim_C2 fxTools fxCfgPr fxScript).2.1.mpr (by decide)

/-- C9: on every exit path of a run the executor session is stopped exactly
once and its resources are released; releasing is idempotent. -/
theorem claim_C9 (tools : List Tool) (cfg : Config)
    (script : Nat → String × Option ExecErr) :
    (analyse tools cfg script).sess.stops = 1
    ∧ (analyse tools cfg script).sess.released = true
    ∧ ∀ s : Session, (stop (stop s)).released = (stop s).released := by
  refine ⟨?_, ?_, fun s => rfl⟩ <;>
  · rcases cfg with ⟨ev, bU, bR, hU, hR⟩
    cases ev with
    | pullRequest =>
      have hs : (analyse tools ⟨.pullRequest, bU, bR, hU, hR⟩ script).sess = stop newSession :=
        analyseFrom_sess tools
          ["git", "clone", "--depth", "1", "--branch", hR, "--single-branch", hU, "."]
          ["git", "fetch", "--depth", "1", bU, bR] "FETCH_HEAD" hR
          { script := script, idx := 0, log := [] }
      rw [hs]
      rfl
    | push =>
      have hs : (analyse tools ⟨.push, bU, bR, hU, hR⟩ script).sess = stop newSession :=
        analyseFrom_sess tools ["git", "clone", hU, "."] ["git", "checkout", hR] bR hR
          { script := script, idx := 0, log := [] }
      rw [hs]
      rfl
    | other => rfl

/-- Witness for C9 at the `TestAnalyse_pr` fixture: the session is stopped
exactly once. -/
theorem claim_C9_witness :
    (analyse fxTools fxCfgPr fxScript).sess.stops = 1 :=
  (claim_C9 fxTools fxCfgPr fxScript).1

/-- C5: for every finding that survives the diff lookup the engine runs
`isFileGenerated <workspace> <path>`, one call per surviving finding in
order; a finding whose check exits 0 (generated) is discarded from the
issues, a finding whose check exits non-zero (not generated) is kept. -/
theorem claim_C5 (dm : List DiffEntry) (ws base : String) (t : Tool) (st : ExecState)
    (h : (st.script st.idx).2 ≠ some .launchFail) :
    (runOneTool dm ws base t st).st.log =
      st.log ++ (t.path :: expandArgs t.args base) ::
        (survivors dm ws (st.script st.idx).1).map (fun fp => ["isFileGenerated", ws, fp.1.path])
    ∧ (runOneTool dm ws base t st).st.idx =
        st.idx + 1 + (survivors dm ws (st.script st.idx).1).length
    ∧ (runOneTool dm ws base t st).run.issues =
        (List.enumFrom (st.idx + 1) (survivors dm ws (st.script st.idx).1)).filterMap
          (fun p => if (st.script p.1).2.isSome then some (mkIssue t.name p.2.1 p.2.2)
            else none) := by
  rw [runOneTool_notLaunch dm ws base t st h]
  refine ⟨?_, ?_, ?_⟩
  · show (dropGenerated ws (survivors dm ws (st.script st.idx).1)
      (exec1 st (t.path :: expandArgs t.args base)).st).2.log = _
    rw [dropGenerated_log, exec1_log]
    simp
  · show (dropGenerated ws (survivors dm ws (st.script st.idx).1)
      (exec1 st (t.path :: expandArgs t.args base)).st).2.idx = _
    rw [dropGenerated_idx, exec1_idx]
  · show ((dropGenerated ws (survivors dm ws (st.script st.idx).1)
      (exec1 st (t.path :: expandArgs t.args base)).st).1).map
        (fun fp => mkIssue t.name fp.1 fp.2) = _
    rw [dropGenerated_kept, exec1_script, exec1_idx]
    rw [List.map_filterMap]
    congr 1
    funext p
    by_cases hc : (st.script p.1).2.isSome <;> simp [hc]

/-- Witness for C5 at the `TestAnalyse_pr` fixture, tool 3 (whose lone
finding is in the diff but on a generated file). -/
theorem claim_C5_witness :
    (runOneTool (parseDiff fxDiff) "/go/src/gopherci" "FETCH_HEAD"
      { id := 3, name := "Name2", path := "tool3", args := "" }
      { script := fxScript, idx := 9, log := [] }).run.issues =
      (List.enumFrom 10 (survivors (parseDiff fxDiff) "/go/src/gopherci" (fxScript 9).1)).filterMap
        (fun p => if (fxScript p.1).2.isSome then some (mkIssue "Name2" p.2.1 p.2.2)
          else none) :=
  (claim_C5 (parseDiff fxDiff) "/go/src/gopherci" "FETCH_HEAD"
    { id := 3, name := "Name2", path := "tool3", args := "" }
    { script := fxScript, idx := 9, log := [] } (by decide)).2.2

/-- C6: when the `git diff` command succeeds, its output is returned as the
effective diff and `git show` is never run; when it exits non-zero (for
example 128, the base revision being unknown), `getPatch` falls back to
`git show <head-ref>` and returns that command's output with no error. -/
theorem claim_C6 (st : ExecState) (base head : String) :
    ((st.script st.idx).2 = none →
      getPatch st base head =
        (.ok (st.script st.idx).1,
          { script := st.script, idx := st.idx + 1
            log := st.log ++ [["git", "diff", base ++ "..." ++ head]] }))
    ∧ (∀ c, (st.script st.idx).2 = some (.nonZero c) →
        (st.script (st.idx + 1)).2 = none →
        getPatch st base head =
          (.ok (st.script (st.idx + 1)).1,
            { script := st.script, idx := st.idx + 2
              log := st.log ++ [["git", "diff", base ++ "..." ++ head],
                ["git", "show", head]] })) := by
  constructor
  · intro h
    simp only [getPatch]
    rw [show (exec1 st ["git", "diff", base ++ "..." ++ head]).res = none from h]
    simp [exec1, List.append_assoc]
  · intro c h h2
    simp only [getPatch]
    rw [show (exec1 st ["git", "diff", base ++ "..." ++ head]).res = some (ExecErr.nonZero c)
          from h,
        show (exec1 (exec1 st ["git", "diff", base ++ "..." ++ head]).st
          ["git", "show", head]).res = none from h2]
    simp [exec1, List.append_assoc]

/-- Witness for C6 at the fixtures of `TestGetPatch` (diff succeeds) and
`TestGetPatch_diffError` (diff exits 128, `git show` supplies the patch). -/
theorem claim_C6_witness :
    getPatch { script := c6ScriptOk, idx := 0, log := [] } "abcdef~1" "abcdef" =
      (.ok "git diff patch",
        { script := c6ScriptOk, idx := 1, log := [["git", "diff", "abcdef~1" ++ "..." ++ "abcdef"]] })
    ∧ getPatch { script := c6ScriptFallback, idx := 0, log := [] } "abcdef~1" "abcdef" =
      (.ok "git show patch",
        { script := c6ScriptFallback, idx := 2
          log := [["git", "diff", "abcdef~1" ++ "..." ++ "abcdef"], ["git", "show", "abcdef"]] }) := by
  constructor
  · exact (claim_C6 { script := c6ScriptOk, idx := 0, log := [] } "abcdef~1" "abcdef").1 rfl
  · exact (claim_C6 { script := c6ScriptFallback, idx := 0, log := [] } "abcdef~1" "abcdef").2
      128 rfl rfl

/-- C8: a non-zero tool exit is not fatal — the recorded runs are exactly
those of an otherwise-identical session whose tool exited 0, so the output
is parsed normally and the remaining tools run — while a launch failure
terminates only that tool's run, which is recorded with no issues while the
remaining tools still run. -/
theorem claim_C8 (dm : List DiffEntry) (ws base : String) (t : Tool) (ts : List Tool)
    (script script' : Nat → String × Option ExecErr) (idx : Nat) (log : List (List String))
    (out : String) (c : Nat) :
    ((script idx = (out, some (.nonZero c))) → (script' idx = (out, none)) →
      (∀ j, j ≠ idx → script j = script' j) →
      (runTools dm ws base (t :: ts) { script := script, idx := idx, log := log }).1 =
        (runTools dm ws base (t :: ts) { script := script', idx := idx, log := log }).1)
    ∧ ((script idx).2 = some .launchFail →
        (runTools dm ws base (t :: ts) { script := script, idx := idx, log := log }).1 =
          { tool := t, argv := t.path :: expandArgs t.args base, output := (script idx).1
            issues := [], launchFailed := true } ::
            (runTools dm ws base ts
              (exec1 { script := script, idx := idx, log := log }
                (t.path :: expandArgs t.args base)).st).1) := by
  constructor
  · intro h1 h2 h3
    have hA : Agree
        (exec1 { script := script, idx := idx, log := log }
          (t.path :: expandArgs t.args base)).st
        (exec1 { script := script', idx := idx, log := log }
          (t.path :: expandArgs t.args base)).st := by
      refine ⟨rfl, rfl, ?_⟩
      intro j hj
      have hj' : idx + 1 ≤ j := hj
      exact h3 j (by omega)
    have hnl1 : (({ script := script, idx := idx, log := log } : ExecState).script
        ({ script := script, idx := idx, log := log } : ExecState).idx).2 ≠
          some ExecErr.launchFail := by
      show (script idx).2 ≠ some ExecErr.launchFail
      rw [h1]
      simp
    have hnl2 : (({ script := script', idx := idx, log := log } : ExecState).script
        ({ script := script', idx := idx, log := log } : ExecState).idx).2 ≠
          some ExecErr.launchFail := by
      show (script' idx).2 ≠ some ExecErr.launchFail
      rw [h2]
      simp
    rw [runTools_cons, runTools_cons]
    show (runOneTool dm ws base t { script := script, idx := idx, log := log }).run ::
        (runTools dm ws base ts
          (runOneTool dm ws base t { script := script, idx := idx, log := log }).st).1 =
      (runOneTool dm ws base t { script := script', idx := idx, log := log }).run ::
        (runTools dm ws base ts
          (runOneTool dm ws base t { script := script', idx := idx, log := log }).st).1
    rw [runOneTool_notLaunch dm ws base t _ hnl1, runOneTool_notLaunch dm ws base t _ hnl2]
    have hout : (({ script := script', idx := idx, log := log } : ExecState).script
        ({ script := script', idx := idx, log := log } : ExecState).idx).1 =
          (({ script := script, idx := idx, log := log } : ExecState).script
            ({ script := script, idx := idx, log := log } : ExecState).idx).1 := by
      show (script' idx).1 = (script idx).1
      rw [h1, h2]
    rw [hout]
    obtain ⟨hk, hA2⟩ := dropGenerated_agree ws
      (survivors dm ws (({ script := script, idx := idx, log := log } : ExecState).script
        ({ script := script, idx := idx, log := log } : ExecState).idx).1) _ _ hA
    obtain ⟨hts, _⟩ := runTools_agree dm ws base ts _ _ hA2
    rw [hk, hts]
  · intro hl
    rw [runTools_cons]
    show (runOneTool dm ws base t { script := script, idx := idx, log := log }).run ::
        (runTools dm ws base ts
          (runOneTool dm ws base t { script := script, idx := idx, log := log }).st).1 = _
    rw [runOneTool_launch dm ws base t _ hl]

/-- Witness for C8: a tool exiting 1 with output is recorded identically to
the same tool exiting 0, and a tool that fails to launch is recorded with no
issues. -/
theorem claim_C8_witness :
    (runTools [] "/w" "B" [cxTool] { script := c8ScriptNonZero, idx := 0, log := [] }).1 =
      (runTools [] "/w" "B" [cxTool] { script := c8ScriptZero, idx := 0, log := [] }).1
    ∧ (runTools [] "/w" "B" [cxTool] { script := c8ScriptLaunch, idx := 0, log := [] }).1 =
        { tool := cxTool, argv := cxTool.path :: expandArgs cxTool.args "B"
          output := (c8ScriptLaunch 0).1, issues := [], launchFailed := true } ::
          (runTools [] "/w" "B" []
            (exec1 { script := c8ScriptLaunch, idx := 0, log := [] }
              (cxTool.path :: expandArgs cxTool.args "B")).st).1 := by
  constructor
  · exact (claim_C8 [] "/w" "B" cxTool [] c8ScriptNonZero c8ScriptZero 0 [] "o" 1).1 rfl rfl
      (fun j hj => by cases j with | zero => exact absurd rfl hj | succ n => rfl)
  · exact (claim_C8 [] "/w" "B" cxTool [] c8ScriptLaunch c8ScriptZero 0 [] "o" 1).2 rfl

/-- C4: a finding printed with the workspace-absolute path
`<workspace>/<relative path>:<line>: <message>` is parsed with the workspace
prefix stripped, so the persisted path is relative to the repository root. -/
theorem claim_C4 (ws p msg ds : List Char) (hws : ':' ∉ ws) (hp : ':' ∉ p)
    (hds1 : ds ≠ []) (hds2 : ds.all Char.isDigit = true) :
    parseLine ws (ws ++ '/' :: p ++ ':' :: ds ++ ':' :: ' ' :: msg) =
      some { path := ⟨p⟩, line := natOfDigits ds, msg := ⟨msg⟩ } := by
  have hcol1 : ':' ∉ ws ++ '/' :: p := by
    intro hm
    rcases List.mem_append.mp hm with hm | hm
    · exact hws hm
    · rcases List.mem_cons.mp hm with hm | hm
      · exact absurd hm (by decide)
      · exact hp hm
  have hcol2 : ':' ∉ ds := by
    intro hm
    have hd := List.all_eq_true.mp hds2 ':' hm
    exact absurd hd (by decide)
  have hsplit : splitOnChar ':' (ws ++ '/' :: p ++ ':' :: ds ++ ':' :: ' ' :: msg) =
      (ws ++ '/' :: p) :: ds :: splitOnChar ':' (' ' :: msg) := by
    have he : ws ++ '/' :: p ++ ':' :: ds ++ ':' :: ' ' :: msg =
        (ws ++ '/' :: p) ++ ':' :: (ds ++ ':' :: ' ' :: msg) := by simp
    rw [he, splitOnChar_append_cons ':' _ _ hcol1, splitOnChar_append_cons ':' _ _ hcol2]
  have hr0 : (splitOnCharCore ':' (' ' :: msg)).1 = ' ' :: (splitOnCharCore ':' msg).1 := by
    rw [splitOnCharCore_cons, if_neg (by decide : ¬((' ' : Char) = ':'))]
  have hnotdig : ¬((splitOnCharCore ':' (' ' :: msg)).1 ≠ [] ∧
      ((splitOnCharCore ':' (' ' :: msg)).1).all Char.isDigit) := by
    intro hand
    have hall := hand.2
    rw [hr0, List.all_cons, (by decide : (' ' : Char).isDigit = false)] at hall
    simp at hall
  have hjoin := joinChar_splitOnCharCore ':' (' ' :: msg)
  simp only [parseLine, hsplit]
  rw [if_pos ⟨hds1, hds2⟩]
  simp only [splitOnChar]
  rcases hsp : (splitOnCharCore ':' (' ' :: msg)).2 with _ | ⟨q, ps⟩
  · rw [hsp] at hjoin
    rw [hjoin]
    simp [stripWorkspace_append]
  · rw [hsp] at hjoin
    rw [if_neg hnotdig, hjoin]
    simp [stripWorkspace_append]

/-- Witness for C4: the spec's literal example — tool output
`<workspace>/sub/x.go:5: msg` with workspace `/go/src/gopherci` is persisted
with path `sub/x.go`. -/
theorem claim_C4_witness :
    parseLine ("/go/src/gopherci".data) ("/go/src/gopherci/sub/x.go:5: msg".data) =
      some { path := "sub/x.go", line := 5, msg := "msg" } := by
  have h := claim_C4 ("/go/src/gopherci".data) ("sub/x.go".data) ("msg".data) ("5".data)
    (by decide) (by decide) (by decide) (by decide)
  have he : "/go/src/gopherci/sub/x.go:5: msg".data =
      "/go/src/gopherci".data ++ '/' :: "sub/x.go".data ++ ':' :: "5".data ++
        ':' :: ' ' :: "msg".data := by decide
  rw [he, h]
  decide

end Gopherci

